import Mathlib

set_option maxHeartbeats 1000000
set_option maxRecDepth 4000

/-!
Shallow embedding of the PHPUnit test-result parsers
(`src/unnamed/part_000`, the `parser.ts` module) and of
`src/server/src/Filesystem.ts` (`lineAt`).

Modelling conventions:
* JavaScript values that may be `undefined` are modelled with `Option`;
  a thrown `TypeError` (reading a property of `undefined`, `null`
  destructuring, …) is modelled with `Except.error`.
* `Promise` rejection and synchronous throwing both surface as
  `Except.error` for the whole parse call.
* External collaborators that are not part of this repository, or whose
  repository code is not under `src/` (the `helpers` module, `xml2js`,
  `minimist-string`), are passed in as explicit function parameters.
* The `time` field is kept as the raw attribute / `duration` string:
  `parseFloat` (IEEE floating point) is not modelled, and no claim
  depends on the numeric value of `time`.
-/

/-- The `Type` enum of the source (lines 8–17).  It is called `TestType`
here because `Type` is reserved in Lean.  At runtime the enum members are
the strings given by `TestType.value`. -/
inductive TestType where
  | PASSED
  | ERROR
  | WARNING
  | FAILURE
  | INCOMPLETE
  | RISKY
  | SKIPPED
  | FAILED
deriving DecidableEq, Repr

/-- The string value of each enum member (`Type.PASSED = 'passed'`, …). -/
def TestType.value : TestType → String
  | .PASSED => "passed"
  | .ERROR => "error"
  | .WARNING => "warning"
  | .FAILURE => "failure"
  | .INCOMPLETE => "incomplete"
  | .RISKY => "risky"
  | .SKIPPED => "skipped"
  | .FAILED => "failed"

/-- The entry list of the `TypeGroup` map (source lines 19–28), in
insertion order. -/
def TypeGroup : List (TestType × TestType) :=
  [(.PASSED, .PASSED), (.ERROR, .ERROR), (.WARNING, .SKIPPED), (.FAILURE, .ERROR),
   (.INCOMPLETE, .INCOMPLETE), (.RISKY, .ERROR), (.SKIPPED, .SKIPPED), (.FAILED, .ERROR)]

/-- JS `TypeGroup.get(key)`: at runtime the key of each entry is the
enum's string value; a key that is not present yields `undefined`
(`none`) — `Map.prototype.get` never throws. -/
def typeGroupGet (key : String) : Option TestType :=
  (TypeGroup.find? (fun e => e.1.value == key)).map (·.2)

/-- Source: `TypeKeys` (source line 30). -/
def TypeKeys : List TestType := [.PASSED, .ERROR, .INCOMPLETE, .SKIPPED]

/-- Source: `Detail` (source lines 32–35).  `line` is an `Int`: the JUnit parser
subtracts one from a parsed natural number, which can produce `-1`. -/
structure Detail where
  file : String
  line : Int
deriving DecidableEq, Repr

/-- Source: `Fault` (source lines 37–41).  Both `message` and `type` can be
`undefined` at runtime, hence `Option`. -/
structure Fault where
  message : Option String
  type : Option String
  details : List Detail
deriving DecidableEq, Repr

/-- Source: `TestCase` (source lines 43–52).  `line = none` models `NaN`
(`parseInt` of a non-numeric `line` attribute); `type = none` models
`undefined` (a TeamCity middle event whose type is not in `typeMap`). -/
structure TestCase where
  name : Option String
  «class» : Option String
  classname : Option String
  file : Option String
  line : Option Int
  time : Option String
  type : Option TestType
  fault : Option Fault
deriving DecidableEq, Repr

/-! ## Computable string primitives

Lean's own `String.splitOn`, `trim`, `replace`, … are defined through
iterators and do not reduce definitionally, which would make concrete
witnesses impossible to check by `rfl`/`decide`.  The JS string
operations the source uses are therefore re-implemented here by
structural recursion on the character list. -/

/-- JS `String.prototype.trim`: drop whitespace from both ends. -/
def jsTrim (s : String) : String :=
  String.mk (((s.data.dropWhile Char.isWhitespace).reverse.dropWhile
    Char.isWhitespace).reverse)

/-- JS `s.split(regexp)` for a single-character-class regexp: split at
every matching character (adjacent matches produce empty segments). -/
def charSplitAux (p : Char → Bool) : List Char → List Char → List String
  | [], acc => [String.mk acc.reverse]
  | c :: cs, acc =>
    if p c then String.mk acc.reverse :: charSplitAux p cs []
    else charSplitAux p cs (c :: acc)

/-- JS `s.split(regexp)` for a single-character-class regexp. -/
def charSplit (p : Char → Bool) (s : String) : List String :=
  charSplitAux p s.data []

/-- Whether the first list is a prefix of the second. -/
def listIsPre : List Char → List Char → Bool
  | [], _ => true
  | _ :: _, [] => false
  | a :: as, b :: bs => a == b && listIsPre as bs

/-- JS `s.split(sep)` for a non-empty string separator: non-overlapping
leftmost matches.  `fuel` bounds the recursion (one character is consumed
per step, so `cs.length` suffices). -/
def splitOnStrAux (sep : List Char) : Nat → List Char → List Char → List (List Char)
  | _, [], acc => [acc.reverse]
  | 0, cs, acc => [acc.reverse ++ cs]
  | fuel + 1, c :: cs, acc =>
    if listIsPre sep (c :: cs) then
      acc.reverse :: splitOnStrAux sep fuel (cs.drop (sep.length - 1)) []
    else splitOnStrAux sep fuel cs (c :: acc)

/-- JS `s.split(sep)` for a string separator (all call sites pass a
non-empty literal separator; the empty-separator case never occurs in
the source). -/
def jsSplitOnStr (s sep : String) : List String :=
  if sep = "" then [s]
  else (splitOnStrAux sep.data s.data.length s.data []).map String.mk

/-- Join a list of strings with a separator (JS `array.join(sep)`). -/
def joinSep (sep : String) : List String → String
  | [] => ""
  | [x] => x
  | x :: xs => x ++ sep ++ joinSep sep xs

/-- JS `s.replace(/pat/g, rep)` for a literal pattern: replace every
non-overlapping occurrence. -/
def jsReplaceAll (s pat rep : String) : String :=
  joinSep rep (jsSplitOnStr s pat)

/-- JS `s.startsWith(pre)`. -/
def jsStartsWith (s pre : String) : Bool := listIsPre pre.data s.data

/-- JS `s.endsWith(suf)`. -/
def jsEndsWith (s suf : String) : Bool := listIsPre suf.data.reverse s.data.reverse

/-- Drop the last `n` characters. -/
def jsDropRight (s : String) (n : Nat) : String :=
  String.mk (s.data.take (s.data.length - n))

/-- JS `s.toLowerCase()` (ASCII, which is all the source compares). -/
def strToLower (s : String) : String := String.mk (s.data.map Char.toLower)

/-- The numeric value of a list of decimal digit characters
(`parseInt` on a pure digit string). -/
def digitsVal (ds : List Char) : Nat :=
  ds.foldl (fun n c => n * 10 + (c.toNat - 48)) 0

/-! ## Shared JS-semantics helpers -/

/-- JS `x || null` for a string attribute: the empty string is falsy. -/
def jsOrNull : Option String → Option String
  | some s => if s = "" then none else some s
  | none => none

/-- JS `x || ''` for a string attribute. -/
def jsOrEmpty (o : Option String) : String := o.getD ""

/-- JS `parseInt(s, 10)`: skip leading whitespace, optional sign, then the
maximal run of leading decimal digits; `none` models `NaN`. -/
def jsParseInt (s : String) : Option Int :=
  let cs := s.data.dropWhile (fun c => c == ' ' || c == '\t' || c == '\n' || c == '\r')
  let signed : Int × List Char :=
    match cs with
    | '-' :: rest => (-1, rest)
    | '+' :: rest => (1, rest)
    | _ => (1, cs)
  let ds := signed.2.takeWhile Char.isDigit
  if ds.isEmpty then none
  else some (signed.1 * (digitsVal ds : Int))

/-- JS `haystack.indexOf(needle) !== -1` for a non-empty needle. -/
def strContains (s sub : String) : Bool := (jsSplitOnStr s sub).length != 1

/-- JS `s.replace(pat, rep)` with a *string* pattern: only the first
occurrence is replaced. -/
def jsReplaceFirst (s pat rep : String) : String :=
  match jsSplitOnStr s pat with
  | [] => s
  | [_] => s
  | a :: b :: rest => a ++ rep ++ joinSep pat (b :: rest)

/-- Greedy match of `/(.*):(\d+)/` (not anchored): the split happens at
the *last* colon that is immediately followed by a digit; the second
capture is the maximal digit run after that colon.  `none` models a
`null` match result. -/
def fileLineSearch (s : String) : Option (String × String) :=
  let cs := s.data
  let hit : Nat → Bool := fun i =>
    (cs[i]? == some ':') && ((cs[i+1]?).map Char.isDigit).getD false
  match ((List.range cs.length).filter hit).getLast? with
  | none => none
  | some i => some (String.mk (cs.take i), String.mk ((cs.drop (i+1)).takeWhile Char.isDigit))

/-- Source: `/(.*):(\d+)$/.test(s)`: `s` ends in a colon followed by at least one
digit running to the end of the string. -/
def endsWithFileLine (s : String) : Bool :=
  let rcs := s.data.reverse
  let ds := rcs.takeWhile Char.isDigit
  !ds.isEmpty && ((rcs.drop ds.length).head? == some ':')

/-- Source: `crlf2lf` (source lines 226–228): replace every CRLF with LF. -/
def crlf2lf (s : String) : String := jsReplaceAll s "\r\n" "\n"

/-- Sequential map that fails on the first error.  Models both
`array.map(f)` where `f` can throw synchronously, and
`Promise.all(array.map(f))`: in either case one failing element makes the
whole call fail. -/
def mapAll {α β : Type} (f : α → Except String β) : List α → Except String (List β)
  | [] => .ok []
  | x :: xs =>
    match f x with
    | .error e => .error e
    | .ok y =>
      match mapAll f xs with
      | .error e => .error e
      | .ok ys => .ok (y :: ys)

/-! ## JUnit parser (xml2js node level)

`xml2js` (an external library) turns the XML document into nested JSON:
an element's attributes live under `$`, its text under `_`, and each
child element name maps to an *array* of child nodes.  The node shapes
below embed exactly the fields the parser reads. -/

/-- The `$` attribute object of a `testcase` or fault element.  Absent
attributes are `none`. -/
structure Attrs where
  name : Option String := none
  «class» : Option String := none
  classname : Option String := none
  file : Option String := none
  line : Option String := none
  time : Option String := none
  type : Option String := none
deriving DecidableEq, Repr

/-- A fault child element (`error` / `warning` / `failure` node): its
attribute object `$` and its text content `_`, either possibly absent. -/
structure XmlNode where
  attr : Option Attrs := none
  text : Option String := none
deriving DecidableEq, Repr

/-- A `testcase` element: attributes plus the optional child-element
arrays the parser tests for.  A present-but-empty array is `some []`
(truthy in JS), an absent key is `none` (falsy). -/
structure TestCaseNode where
  attr : Option Attrs := none
  error : Option (List XmlNode) := none
  warning : Option (List XmlNode) := none
  failure : Option (List XmlNode) := none
  skipped : Option (List XmlNode) := none
  incomplete : Option (List XmlNode) := none
deriving DecidableEq, Repr

/-- A `testsuite`/`testsuites` element: either nested `testsuite` nodes
or `testcase` nodes (or neither). -/
inductive TestSuiteNode where
  | mk (testsuite : Option (List TestSuiteNode)) (testcase : Option (List TestCaseNode))

/-- The fault node assembled by `getFaultNode`:
`Object.assign({type}, node)` — the classified type plus the `$` and `_`
of the underlying element. -/
structure FaultNode where
  type : TestType
  attr : Option Attrs := none
  text : Option String := none
deriving DecidableEq, Repr

namespace JUnitParser

/-- Source: `line: parseInt(attr.line || 1, 10) - 1` (source line 108):
an absent or empty attribute defaults to the number `1`, so the stored
line is `0`; a non-numeric attribute gives `NaN` (`none`). -/
def attrLine (o : Option String) : Option Int :=
  match jsOrNull o with
  | none => some 0
  | some s => (jsParseInt s).map (· - 1)

/-- The `testCase` literal of `parseTestCase` (source lines 103–111)
before any fault handling. -/
def baseTestCase (a : Attrs) : TestCase :=
  { name := jsOrNull a.name
    «class» := a.«class»
    classname := jsOrNull a.classname
    file := a.file
    line := attrLine a.line
    time := a.time
    type := some .PASSED
    fault := none }

/-- Source: `parseErrorType` (source lines 208–224): classify the error node's
declared `type` attribute, lower-cased, by substring containment in the
priority skipped → incomplete → failed → otherwise error.  Reading the
attribute of a missing node or a missing attribute throws. -/
def parseErrorType (errorNode : Option XmlNode) : Except String TestType :=
  match errorNode with
  | none => .error "TypeError: cannot read $ of undefined"
  | some n =>
    match n.attr with
    | none => .error "TypeError: cannot read type of undefined"
    | some a =>
      match a.type with
      | none => .error "TypeError: cannot read toLowerCase of undefined"
      | some t =>
        let errorType := strToLower t
        if strContains errorType TestType.SKIPPED.value then .ok .SKIPPED
        else if strContains errorType TestType.INCOMPLETE.value then .ok .INCOMPLETE
        else if strContains errorType TestType.FAILED.value then .ok .FAILED
        else .ok .ERROR

/-- Source: `getFaultNode` (source lines 148–187): pick the fault element by the
fixed priority `error` > `warning` > `failure` > (`skipped` or
`incomplete`) > none; `skipped`/`incomplete` yield a synthetic node. -/
def getFaultNode (n : TestCaseNode) : Except String (Option FaultNode) :=
  if n.error.isSome then
    let e0 := (n.error.getD []).head?
    match parseErrorType e0 with
    | .error e => .error e
    | .ok t => .ok (some { type := t, attr := e0.bind (·.attr), text := e0.bind (·.text) })
  else if n.warning.isSome then
    let w0 := (n.warning.getD []).head?
    .ok (some { type := .WARNING, attr := w0.bind (·.attr), text := w0.bind (·.text) })
  else if n.failure.isSome then
    let f0 := (n.failure.getD []).head?
    .ok (some { type := .FAILURE, attr := f0.bind (·.attr), text := f0.bind (·.text) })
  else if n.skipped.isSome || n.incomplete.isSome then
    .ok (some { type := .SKIPPED, attr := some { type := some TestType.SKIPPED.value }, text := some "" })
  else .ok none

/-- Source: `parseDetails` (source lines 193–206): split the message on `\n`,
trim, keep the lines matching `/(.*):(\d+)$/`, and capture `(file, line)`
with the line converted from one-based to zero-based. -/
def parseDetails (message : String) : List Detail :=
  (((jsSplitOnStr message "\n").map jsTrim).filter endsWithFileLine).filterMap
    (fun path => (fileLineSearch path).map
      (fun p => { file := p.1, line := (digitsVal p.2.data : Int) - 1 }))

/-- The `details.forEach` strip loop (source lines 123–125): delete the
first occurrence of each reconstructed one-based `file:line` token from
the message and trim after each deletion. -/
def stripDetails (message : String) (details : List Detail) : String :=
  details.foldl
    (fun m d => jsTrim (jsReplaceFirst m (d.file ++ ":" ++ toString (d.line + 1)) ""))
    message

/-- Source: `currentFile` (source lines 137–146): the last detail whose file
equals the test case's (nominal) file wins; otherwise the nominal
file/line stand. -/
def currentFile (details : List Detail) (tcFile : Option String) (tcLine : Option Int) :
    Option String × Option Int :=
  let ds := details.filter (fun d => tcFile == some d.file)
  match ds.getLast? with
  | some d => (some d.file, some d.line)
  | none => (tcFile, tcLine)

/-- Source: `parseTestCase` (source lines 100–135).  Note that both `currentFile`
and the `details.filter` are evaluated against the *nominal*
`testCase.file` (JS evaluates `Object.assign`'s arguments before any
mutation happens). -/
def parseTestCase (n : TestCaseNode) : Except String TestCase :=
  match n.attr with
  | none => .error "TypeError: cannot read name of undefined"
  | some a =>
    let testCase := baseTestCase a
    match getFaultNode n with
    | .error e => .error e
    | .ok none => .ok testCase
    | .ok (some faultNode) =>
      match faultNode.text with
      | none => .error "TypeError: cannot read replace of undefined"
      | some raw =>
        let message := crlf2lf raw
        let details := parseDetails message
        let stripped := stripDetails message details
        match faultNode.attr with
        | none => .error "TypeError: cannot read type of undefined"
        | some faultNodeAttr =>
          let fl := currentFile details testCase.file testCase.line
          .ok { testCase with
                file := fl.1
                line := fl.2
                type := some faultNode.type
                fault := some
                  { type := some (jsOrEmpty faultNodeAttr.type)
                    message := some (jsTrim stripped)
                    details := details.filter (fun d => some d.file != testCase.file) } }

mutual

/-- Source: `parseTestSuite` on one node (source lines 89–98): a node with a
(truthy, possibly empty) `testsuite` array recurses; otherwise a node
with a `testcase` array parses each test case; otherwise the empty
list. -/
def parseTestSuiteNode : TestSuiteNode → Except String (List TestCase)
  | .mk (some suites) _ => parseSuiteList suites
  | .mk none (some cases) => mapAll parseTestCase cases
  | .mk none none => .ok []

/-- Source: `testCase.concat(...testsuite.map(parseTestSuite))`: parse each child
suite and concatenate the results in document order. -/
def parseSuiteList : List TestSuiteNode → Except String (List TestCase)
  | [] => .ok []
  | t :: ts =>
    match parseTestSuiteNode t with
    | .error e => .error e
    | .ok r =>
      match parseSuiteList ts with
      | .error e => .error e
      | .ok rest => .ok (r ++ rest)

end

/-- Source: `parseString` (source lines 85–87): `xml2json` (the external `xml2js`
library, passed in as `xmlParse`) produces the JSON document, whose
`testsuites` field is handed to `parseTestSuite`; an absent `testsuites`
field makes the property reads inside `parseTestSuite` throw. -/
def parseString (xmlParse : String → Except String (Option TestSuiteNode))
    (content : String) : Except String (List TestCase) :=
  match xmlParse content with
  | .error e => .error e
  | .ok none => .error "TypeError: cannot read testsuite of undefined"
  | .ok (some root) => parseTestSuiteNode root

/-- Source: `parse` (source lines 81–83): `parse(fileName)` is `parseFile`, i.e.
it *reads the file named by its argument* and parses the file's contents.
Modelled from the spec: `readFileAsync` lives in the `helpers` module,
which is not under `src/`; it is the whole-file read collaborator
`readFile(path) -> text`, passed in as `fs`. -/
def parse (fs : String → Except String String)
    (xmlParse : String → Except String (Option TestSuiteNode))
    (fileName : String) : Except String (List TestCase) :=
  match fs fileName with
  | .error e => .error e
  | .ok content => parseString xmlParse content

end JUnitParser

/-! ## TeamCity (service-message) parser -/

/-- One decoded service-message event: the leading bare token is `type`,
the remaining `key=value` arguments fill the named fields.  Only the keys
the parser reads are tracked; a key that was never assigned and a key
assigned `undefined` both read back as `none`. -/
structure TCEvent where
  type : Option String := none
  locationHint : Option String := none
  message : Option String := none
  details : Option String := none
  duration : Option String := none
deriving DecidableEq, Repr

namespace TeamCityParser

/-- The `typeMap` table (source lines 240–244), as JS property lookup:
a key outside the table yields `undefined`. -/
def typeMap : Option String → Option TestType
  | some "testPassed" => some .PASSED
  | some "testFailed" => some .FAILURE
  | some "testIgnored" => some .SKIPPED
  | _ => none

/-- Source: `renamePath` (source lines 373–375): on Windows rewrite every forward
slash to a backslash.  The module-level `os` flag is threaded in as
`win`. -/
def renamePath (win : Bool) (path : String) : String :=
  if win then jsReplaceAll path "/" "\\" else path

/-- Source: `opts[key] = value` inside `convertToArguments`: assign one decoded
`key=value` argument to the event record (keys the parser never reads are
not tracked). -/
def setEventKey (ev : TCEvent) (key : String) (value : Option String) : TCEvent :=
  if key == "locationHint" then { ev with locationHint := value }
  else if key == "message" then { ev with message := value }
  else if key == "details" then { ev with details := value }
  else if key == "duration" then { ev with duration := value }
  else ev

/-- Source: `.replace(/^##teamcity\[|\]$/g, '')`: strip the leading service
marker with its opening bracket, and a trailing closing bracket. -/
def stripServiceMessage (line : String) : String :=
  let l := if jsStartsWith line "##teamcity[" then line.drop "##teamcity[".length else line
  if jsEndsWith l "]" then jsDropRight l 1 else l

/-- Source: `convertToArguments` (source lines 345–371).  The shell-like argument
splitter is the external `minimist-string` package, passed in as `tok`
(it models `minimistString(line)._`).  Lines not starting with the
marker are dropped, the marker and brackets are stripped, backslashes
become forward slashes, the first bare token is the event type, the rest
are `key=value` pairs; the three bookkeeping event types are dropped. -/
def convertToArguments (tok : String → List String) (content : String) : List TCEvent :=
  (((charSplit (fun c => c == '\r' || c == '\n') content).filter
      (fun line => jsStartsWith line "##teamcity")).map
    (fun line =>
      let stripped := jsReplaceAll (stripServiceMessage (jsTrim line)) "\\" "/"
      let argv := tok stripped
      argv.tail.foldl
        (fun ev arg =>
          let kv := jsSplitOnStr arg "="
          setEventKey ev (kv.head?.getD "") kv[1]?)
        { type := argv.head? })).filter
    (fun item =>
      !(item.type == some "testCount" || item.type == some "testSuiteStarted" ||
        item.type == some "testSuiteFinished"))

/-- One step of the `reduce` inside `groupByType`: push the event onto
the current group; a `testFinished` event closes the current group. -/
def groupStep (st : List (List TCEvent) × List TCEvent) (item : TCEvent) :
    List (List TCEvent) × List TCEvent :=
  let cur := st.2 ++ [item]
  if item.type == some "testFinished" then (st.1 ++ [cur], []) else (st.1, cur)

/-- Source: `groupByType` (source lines 329–343): a `reduce` that pushes each
event onto the group at the current index and bumps the index right
after a `testFinished` event; a trailing unfinished group (if any) stays
in the result. -/
def groupByType (items : List TCEvent) : List (List TCEvent) :=
  let st := items.foldl groupStep ([], [])
  if st.2.isEmpty then st.1 else st.1 ++ [st.2]

/-- Source: `convertToDetail` (source lines 314–327): split the given string on
the literal `|n`, trim, drop empty segments, and match each remaining
segment against `/(.*):(\d+)/` — a non-matching segment makes the
destructuring of `null` throw.  The captured line is `parseInt`-ed
*without* any one-based→zero-based adjustment. -/
def convertToDetail (win : Bool) (content : String) : Except String (List Detail) :=
  mapAll
    (fun path =>
      match fileLineSearch path with
      | none => .error "TypeError: null is not iterable"
      | some p => .ok ({ file := renamePath win p.1, line := (digitsVal p.2.data : Int) } : Detail))
    (((jsSplitOnStr content "|n").map jsTrim).filter (fun l => l != ""))

/-- The `locationHint` processing of `convertToTestCase` (source lines
270–277): trim, strip the `php_qn://` scheme (first occurrence, anchored),
collapse the first `::/` to `::`, split on `::`, and rewrite the first
part's path separators.  Destructuring never fails: fewer than three
parts just leave the later names `undefined`. -/
def parseLocationHint (win : Bool) (lh : String) : List String :=
  let s := jsTrim lh
  let s := if jsStartsWith s "php_qn://" then s.drop "php_qn://".length else s
  let s := jsReplaceFirst s "::/" "::"
  match jsSplitOnStr s "::" with
  | [] => []
  | p :: rest => renamePath win p :: rest

/-- One iteration of `convertToTestCase` (source lines 262–310) on a
single group.  `ld` models `LineData.lineNumber` — modelled from the
spec: `LineData` lives in the `helpers` module, which is not under
`src/`; per the spec it is `lineNumberContaining(path, needle) ->
zero-based index (first matching line; fails if absent)`. -/
def convertGroup (win : Bool) (ld : String → String → Except String Int)
    (group : List TCEvent) : Except String TestCase :=
  let group := if group.length == 2
    then group.take 1 ++ [{ type := some "testPassed" }] ++ group.drop 1
    else group
  match group[0]? with
  | none => .error "TypeError: cannot read locationHint of undefined"
  | some start =>
    match start.locationHint with
    | none => .error "TypeError: cannot read trim of undefined"
    | some lh =>
      let parts := parseLocationHint win lh
      let file := parts[0]?
      let className := parts[1]?
      let name := parts[2]?
      match group[1]? with
      | none => .error "TypeError: cannot read type of undefined"
      | some error =>
        let type := typeMap error.type
        match group[2]? with
        | none => .error "TypeError: cannot read duration of undefined"
        | some finish =>
          let testCase : TestCase :=
            { name := name, «class» := className, classname := none,
              file := file, line := some 0, time := finish.duration,
              type := type, fault := none }
          if type = some .PASSED then
            match ld (file.getD "") ("function " ++ name.getD "undefined") with
            | .error e => .error e
            | .ok l => .ok { testCase with line := some l }
          else
            match error.details with
            | none => .error "TypeError: cannot read split of undefined"
            | some detailsStr =>
              match convertToDetail win detailsStr with
              | .error e => .error e
              | .ok details =>
                let fl : Option String × Option Int :=
                  match details.head? with
                  | some d => (some d.file, some d.line)
                  | none => (testCase.file, testCase.line)
                .ok { testCase with
                      file := fl.1
                      line := fl.2
                      fault := some
                        { message := error.message
                          type := none
                          details := details.filter (fun d => some d.file != file) } }

/-- Source: `convertToTestCase` (source lines 260–312): convert every group; one
failing group fails the whole call (`Promise.all`). -/
def convertToTestCase (win : Bool) (ld : String → String → Except String Int)
    (groups : List (List TCEvent)) : Except String (List TestCase) :=
  mapAll (convertGroup win ld) groups

/-- Source: `parseString` (source lines 254–258): the three-stage pipeline. -/
def parseString (win : Bool) (tok : String → List String)
    (ld : String → String → Except String Int) (content : String) :
    Except String (List TestCase) :=
  convertToTestCase win ld (groupByType (convertToArguments tok content))

/-- Source: `parse` (source lines 250–252): delegate to `parseString` on the
given text. -/
def parse (win : Bool) (tok : String → List String)
    (ld : String → String → Except String Int) (content : String) :
    Except String (List TestCase) :=
  parseString win tok ld content

end TeamCityParser

/-! ## Filesystem.lineAt -/

namespace Filesystem

/-- The `rl.on('line')` handler loop of `lineAt`
(src/server/src/Filesystem.ts lines 145–170): the file's lines arrive in
order with a running counter starting at 0; the first line whose counter
equals `lineNumber` resolves the promise with that line's text; if the
stream closes without a hit the promise is rejected with `''`. -/
def lineAtGo (lineNumber : Int) : List String → Int → Except String String
  | [], _ => .error ""
  | l :: ls, current =>
    if lineNumber == current then .ok l else lineAtGo lineNumber ls (current + 1)

/-- Source: `lineAt`: the file is modelled by its list of lines (what the
`readline` interface emits). -/
def lineAt (lines : List String) (lineNumber : Int) : Except String String :=
  lineAtGo lineNumber lines 0

end Filesystem

/-! ## Spec-side definitions

These definitions follow the *specification's words* (not the source) and
are used to compare the code against the spec in the claims below. -/

/-- Per the spec's severity table: `Passed→Passed`, `Error→Error`,
`Warning→Skipped`, `Failure→Error`, `Incomplete→Incomplete`,
`Risky→Error`, `Skipped→Skipped`, `Failed→Error`. -/
def specSeverity : TestType → TestType
  | .PASSED => .PASSED
  | .ERROR => .ERROR
  | .WARNING => .SKIPPED
  | .FAILURE => .ERROR
  | .INCOMPLETE => .INCOMPLETE
  | .RISKY => .ERROR
  | .SKIPPED => .SKIPPED
  | .FAILED => .ERROR

/-- Per the spec's classification rule for `error` elements: contains
"skipped" → Skipped; contains "incomplete" → Incomplete; contains
"failed" → Failed; otherwise Error, all on the lower-cased type string. -/
def specErrorClassify (t : String) : TestType :=
  let lt := strToLower t
  if strContains lt "skipped" then .SKIPPED
  else if strContains lt "incomplete" then .INCOMPLETE
  else if strContains lt "failed" then .FAILED
  else .ERROR

/-- Per the spec's grouping rule, with `cur` the group being accumulated:
walk the events in order, closing the current group immediately after
consuming a `testFinished` event; a trailing unfinished group is kept. -/
def specGroupsAux (cur : List TCEvent) : List TCEvent → List (List TCEvent)
  | [] => if cur.isEmpty then [] else [cur]
  | x :: xs =>
    if x.type == some "testFinished" then (cur ++ [x]) :: specGroupsAux [] xs
    else specGroupsAux (cur ++ [x]) xs

/-- The spec's per-test windowing of the event stream. -/
def specGroups (items : List TCEvent) : List (List TCEvent) :=
  specGroupsAux [] items

/-- The invariant claimed for every returned `TestCase`: no fault and
type `Passed`, or a fault and a type other than `Passed`. -/
def faultInvariant (tc : TestCase) : Prop :=
  (tc.fault = none ∧ tc.type = some .PASSED) ∨ (tc.fault ≠ none ∧ tc.type ≠ some .PASSED)

/-! ## Helper lemmas -/

theorem mapAll_ok_mem {α β : Type} (f : α → Except String β) :
    ∀ (xs : List α) (ys : List β), mapAll f xs = .ok ys →
      ∀ y ∈ ys, ∃ x ∈ xs, f x = .ok y := by
  intro xs
  induction xs with
  | nil =>
    intro ys h y hy
    unfold mapAll at h
    cases h
    cases hy
  | cons x xs ih =>
    intro ys h y hy
    unfold mapAll at h
    cases hfx : f x with
    | error e => rw [hfx] at h; cases h
    | ok v =>
      rw [hfx] at h
      cases hrest : mapAll f xs with
      | error e => rw [hrest] at h; cases h
      | ok vs =>
        rw [hrest] at h
        cases h
        rcases hy with _ | hy
        · exact ⟨x, List.mem_cons_self x xs, hfx⟩
        · obtain ⟨x2, hx2, hfx2⟩ := ih vs hrest y (by assumption)
          exact ⟨x2, List.mem_cons_of_mem x hx2, hfx2⟩

theorem mapAll_error_of_mem {α β : Type} (f : α → Except String β) :
    ∀ (xs : List α) (x : α), x ∈ xs → (∃ e, f x = .error e) →
      ∃ msg, mapAll f xs = .error msg := by
  intro xs
  induction xs with
  | nil => intro x hx; cases hx
  | cons z zs ih =>
    intro x hx he
    unfold mapAll
    cases hfz : f z with
    | error e => exact ⟨e, rfl⟩
    | ok v =>
      rcases hx with _ | hx
      · obtain ⟨e, he⟩ := he
        rw [he] at hfz
        cases hfz
      · obtain ⟨msg, hmsg⟩ := ih x (by assumption) he
        rw [hmsg]
        exact ⟨msg, rfl⟩

/-! ## Claim C9 (corrected) -/

/-- C9 counterexample: `"nunit"` is outside the closed enumeration, yet
querying the severity map with it silently yields `undefined` (`none`) —
`Map.prototype.get` does not fail loudly. -/
theorem c9_counterexample :
    typeGroupGet "nunit" = none ∧
      "nunit" ∉ TypeGroup.map (fun e => e.1.value) := by
  constructor
  · rfl
  · decide

/-- C9 as amended: querying the severity map with a value outside the
closed enumeration silently returns an absent result (`none`), not an
error; every member of the enumeration maps to exactly one of the four
severities `{Passed, Error, Incomplete, Skipped}` per the fixed table. -/
theorem c9_amended (s : String) (t : TestType) :
    (s ∉ TypeGroup.map (fun e => e.1.value) → typeGroupGet s = none) ∧
      (typeGroupGet t.value = some (specSeverity t) ∧ specSeverity t ∈ TypeKeys) := by
  constructor
  · intro hs
    unfold typeGroupGet
    rw [List.find?_eq_none.mpr]
    · rfl
    · intro e he
      simp only [beq_iff_eq]
      intro hev
      exact hs (hev ▸ List.mem_map_of_mem (fun e => e.1.value) he)
  · cases t <;> exact ⟨rfl, by decide⟩

/-- C9 witness: the amended theorem applied at `"nunit"` (outside the
enumeration) and at the `Warning` member. -/
theorem c9_witness :
    typeGroupGet "nunit" = none ∧
      typeGroupGet "warning" = some TestType.SKIPPED ∧
      TestType.SKIPPED ∈ TypeKeys :=
  ⟨(c9_amended "nunit" .WARNING).1 (by decide),
   (c9_amended "nunit" .WARNING).2.1,
   (c9_amended "nunit" .WARNING).2.2⟩

/-! ## Claim C10 (confirmed) -/

theorem lineAtGo_spec (lines : List String) : ∀ (c : Int) (k : Nat),
    Filesystem.lineAtGo (c + k) lines c =
      if h : k < lines.length then .ok (lines.get ⟨k, h⟩) else .error "" := by
  induction lines with
  | nil =>
    intro c k
    simp [Filesystem.lineAtGo]
  | cons l ls ih =>
    intro c k
    cases k with
    | zero =>
      simp [Filesystem.lineAtGo]
    | succ j =>
      have hne : ((c + ((j : Nat) + 1 : Nat) : Int) == c) = false := by
        simp only [beq_eq_false_iff_ne, ne_eq]
        omega
      have harg : (c + ((j : Nat) + 1 : Nat) : Int) = (c + 1) + (j : Nat) := by
        push_cast
        ring
      rw [Filesystem.lineAtGo, hne]
      simp only [Bool.false_eq_true, if_false]
      rw [harg, ih (c + 1) j]
      by_cases hj : j < ls.length
      · rw [dif_pos hj, dif_pos (by simpa using Nat.succ_lt_succ hj)]
        rfl
      · rw [dif_neg hj, dif_neg (by simpa using fun h => hj (Nat.lt_of_succ_lt_succ h))]

/-- C10: for every file (modelled by its list of lines) and every
zero-based index `n`, `lineAt` resolves with the file's line at index `n`
when the file has more than `n` lines, and rejects (with the empty
string) when it has `n` or fewer lines — never a default value. -/
theorem c10_theorem (lines : List String) (n : Nat) :
    Filesystem.lineAt lines n =
      if h : n < lines.length then .ok (lines.get ⟨n, h⟩) else .error "" := by
  have := lineAtGo_spec lines 0 n
  rw [Int.zero_add] at this
  exact this

/-! ## Claim C6 (corrected) -/

/-- A file system on which every read fails. -/
def fsC6 : String → Except String String := fun _ => .error "ENOENT: no such file"

/-- An XML front end that parses any text to an empty `testsuites`
document. -/
def xpC6 : String → Except String (Option TestSuiteNode) :=
  fun _ => .ok (some (.mk none none))

/-- C6 counterexample: at the concrete input `"report.xml"`,
`JUnitParser.parse` (which treats its argument as a *file name* and reads
that file) differs from `JUnitParser.parseString` on the same text: the
former fails with the read error while the latter parses the text
itself. -/
theorem c6_counterexample :
    JUnitParser.parse fsC6 xpC6 "report.xml" ≠
      JUnitParser.parseString xpC6 "report.xml" := by
  intro h
  exact Except.noConfusion h

/-- C6 as amended: `TeamCityParser.parse(t)` does return the same result
as `TeamCityParser.parseString(t)` for every text `t`; but
`JUnitParser.parse(t)` treats `t` as a file name — it returns
`parseString` applied to the *contents read from file `t`* when the read
succeeds, and fails with the read error otherwise (it performs a file
read, not a parse of `t` itself). -/
theorem c6_amended (win : Bool) (tok : String → List String)
    (ld : String → String → Except String Int)
    (fs : String → Except String String)
    (xmlParse : String → Except String (Option TestSuiteNode)) (t : String) :
    TeamCityParser.parse win tok ld t = TeamCityParser.parseString win tok ld t ∧
      (∀ content, fs t = .ok content →
        JUnitParser.parse fs xmlParse t = JUnitParser.parseString xmlParse content) ∧
      (∀ e, fs t = .error e → JUnitParser.parse fs xmlParse t = .error e) := by
  refine ⟨rfl, ?_, ?_⟩
  · intro content hc
    unfold JUnitParser.parse
    rw [hc]
  · intro e he
    unfold JUnitParser.parse
    rw [he]

/-- C6 witness: the amended theorem at a concrete file system holding one
file. -/
theorem c6_amended_witness :
    TeamCityParser.parse false (fun s => [s]) (fun _ _ => .error "") "x" =
        TeamCityParser.parseString false (fun s => [s]) (fun _ _ => .error "") "x" ∧
      JUnitParser.parse (fun _ => .ok "<testsuites/>") xpC6 "report.xml" =
        JUnitParser.parseString xpC6 "<testsuites/>" := by
  obtain ⟨h1, h2, _⟩ :=
    c6_amended false (fun s => [s]) (fun _ _ => .error "")
      (fun _ => .ok "<testsuites/>") xpC6 "x"
  obtain ⟨_, h2, _⟩ :=
    c6_amended false (fun s => [s]) (fun _ _ => .error "")
      (fun _ => .ok "<testsuites/>") xpC6 "report.xml"
  exact ⟨h1, h2 "<testsuites/>" rfl⟩

/-! ## Claim C5 (confirmed) -/

theorem groupByType_aux (items : List TCEvent) :
    ∀ (done : List (List TCEvent)) (cur : List TCEvent),
      (let st := items.foldl TeamCityParser.groupStep (done, cur)
       if st.2.isEmpty then st.1 else st.1 ++ [st.2]) =
        done ++ specGroupsAux cur items := by
  induction items with
  | nil =>
    intro done cur
    cases cur <;> simp [specGroupsAux]
  | cons x xs ih =>
    intro done cur
    simp only [List.foldl_cons]
    by_cases hx : (x.type == some "testFinished") = true
    · simp only [TeamCityParser.groupStep, hx, if_true]
      rw [ih]
      simp [specGroupsAux, hx]
    · simp only [TeamCityParser.groupStep, Bool.not_eq_true] at hx
      simp only [TeamCityParser.groupStep, hx]
      rw [ih]
      simp [specGroupsAux, hx]

/-- C5: grouping walks the filtered event sequence in order and closes
the current group immediately after each `testFinished` event (formally:
`groupByType` equals the spec-side recursive windowing `specGroups`);
and a group consisting of just `[testStarted, testFinished]` has an
implicit `testPassed` middle event synthesized, so it converts to a
`TestCase` of type `Passed` (with no fault). -/
theorem c5_theorem (items : List TCEvent) (win : Bool)
    (ld : String → String → Except String Int) (st fin : TCEvent)
    (lh : String) (k : Int)
    (hst : st.type = some "testStarted") (hfin : fin.type = some "testFinished")
    (hlh : st.locationHint = some lh) (hld : ∀ f nd, ld f nd = .ok k) :
    TeamCityParser.groupByType items = specGroups items ∧
      ∃ tc, TeamCityParser.convertToTestCase win ld
          (TeamCityParser.groupByType [st, fin]) = .ok [tc] ∧
        tc.type = some .PASSED ∧ tc.fault = none := by
  have hgen : ∀ its, TeamCityParser.groupByType its = specGroups its := by
    intro its
    have := groupByType_aux its [] []
    simpa [TeamCityParser.groupByType, specGroups] using this
  refine ⟨hgen items, ?_⟩
  have hst' : (st.type == some "testFinished") = false := by
    rw [hst]; rfl
  have hfin' : (fin.type == some "testFinished") = true := by
    rw [hfin]; rfl
  have hg : TeamCityParser.groupByType [st, fin] = [[st, fin]] := by
    rw [hgen [st, fin]]
    simp [specGroups, specGroupsAux, hst', hfin']
  rw [hg]
  refine ⟨{ name := (TeamCityParser.parseLocationHint win lh)[2]?,
            «class» := (TeamCityParser.parseLocationHint win lh)[1]?,
            classname := none,
            file := (TeamCityParser.parseLocationHint win lh)[0]?,
            line := some k,
            time := fin.duration,
            type := some .PASSED,
            fault := none }, ?_, rfl, rfl⟩
  have hcg : TeamCityParser.convertGroup win ld [st, fin] =
      .ok { name := (TeamCityParser.parseLocationHint win lh)[2]?,
            «class» := (TeamCityParser.parseLocationHint win lh)[1]?,
            classname := none,
            file := (TeamCityParser.parseLocationHint win lh)[0]?,
            line := some k,
            time := fin.duration,
            type := some .PASSED,
            fault := none } := by
    unfold TeamCityParser.convertGroup
    simp [hlh, hld, TeamCityParser.typeMap]
  unfold TeamCityParser.convertToTestCase mapAll
  rw [hcg]
  rfl

/-- C5 witness: a concrete `[testStarted, testFinished]` stream converts
to a passed `TestCase`. -/
theorem c5_witness :
    TeamCityParser.groupByType [] = specGroups [] ∧
      ∃ tc, TeamCityParser.convertToTestCase false (fun _ _ => .ok 7)
          (TeamCityParser.groupByType
            [{ type := some "testStarted", locationHint := some "php_qn://a.php::A::m" },
             { type := some "testFinished", duration := some "3" }]) = .ok [tc] ∧
        tc.type = some .PASSED ∧ tc.fault = none :=
  c5_theorem [] false (fun _ _ => .ok 7)
    { type := some "testStarted", locationHint := some "php_qn://a.php::A::m" }
    { type := some "testFinished", duration := some "3" }
    "php_qn://a.php::A::m" 7 rfl rfl rfl (fun _ _ => rfl)


/-! ## Claim C8 (confirmed) -/

theorem parseErrorType_ne_passed (o : Option XmlNode) (t : TestType)
    (h : JUnitParser.parseErrorType o = .ok t) : t ≠ .PASSED := by
  unfold JUnitParser.parseErrorType at h
  split at h
  · cases h
  · split at h
    · cases h
    · split at h
      · cases h
      · simp only [] at h
        split at h
        · cases h; decide
        · split at h
          · cases h; decide
          · split at h
            · cases h; decide
            · cases h; decide

theorem getFaultNode_ne_passed (n : TestCaseNode) (fn : FaultNode)
    (h : JUnitParser.getFaultNode n = .ok (some fn)) : fn.type ≠ .PASSED := by
  unfold JUnitParser.getFaultNode at h
  simp only [] at h
  split at h
  · split at h
    · cases h
    next t ht =>
      cases h
      exact parseErrorType_ne_passed _ t ht
  · split at h
    · cases h; simp
    · split at h
      · cases h; simp
      · split at h
        · cases h; simp
        · cases h

theorem parseTestCase_invariant (n : TestCaseNode) (tc : TestCase)
    (h : JUnitParser.parseTestCase n = .ok tc) : faultInvariant tc := by
  unfold JUnitParser.parseTestCase at h
  simp only [] at h
  split at h
  · cases h
  next a =>
    split at h
    · cases h
    · cases h
      exact Or.inl ⟨rfl, rfl⟩
    next fn hfn =>
      split at h
      · cases h
      · split at h
        · cases h
        · cases h
          have hne := getFaultNode_ne_passed n fn hfn
          exact Or.inr ⟨by simp, by simpa using hne⟩

theorem convertGroup_invariant (win : Bool)
    (ld : String → String → Except String Int) (g : List TCEvent) (tc : TestCase)
    (h : TeamCityParser.convertGroup win ld g = .ok tc) : faultInvariant tc := by
  unfold TeamCityParser.convertGroup at h
  simp only [] at h
  generalize (if g.length == 2
      then g.take 1 ++ [({ type := some "testPassed" } : TCEvent)] ++ g.drop 1
      else g) = g2 at h
  split at h
  · cases h
  · split at h
    · cases h
    · split at h
      · cases h
      · split at h
        · cases h
        · split at h
          next hpassed =>
            split at h
            · cases h
            · cases h
              exact Or.inl ⟨rfl, hpassed⟩
          next hnp =>
            split at h
            · cases h
            · split at h
              · cases h
              · cases h
                exact Or.inr ⟨by simp, by simpa using hnp⟩

theorem parseSuiteList_mem (ns : List TestSuiteNode) (tcs : List TestCase)
    (tc : TestCase) (h : JUnitParser.parseSuiteList ns = .ok tcs) (hm : tc ∈ tcs) :
    ∃ t ∈ ns, ∃ sub, JUnitParser.parseTestSuiteNode t = .ok sub ∧ tc ∈ sub := by
  induction ns generalizing tcs with
  | nil =>
    unfold JUnitParser.parseSuiteList at h
    cases h
    cases hm
  | cons t ts ih =>
    unfold JUnitParser.parseSuiteList at h
    split at h
    · cases h
    next r hr =>
      split at h
      · cases h
      next rest hrest =>
        cases h
        rcases List.mem_append.mp hm with hm | hm
        · exact ⟨t, List.mem_cons_self t ts, r, hr, hm⟩
        · obtain ⟨t2, ht2, sub, hsub, hmem⟩ := ih rest hrest hm
          exact ⟨t2, List.mem_cons_of_mem t ht2, sub, hsub, hmem⟩

theorem parseTestSuiteNode_mem (fuel : Nat) :
    ∀ (n : TestSuiteNode), sizeOf n ≤ fuel →
      ∀ (tcs : List TestCase) (tc : TestCase),
        JUnitParser.parseTestSuiteNode n = .ok tcs → tc ∈ tcs →
          ∃ cn, JUnitParser.parseTestCase cn = .ok tc := by
  induction fuel with
  | zero =>
    intro n hn
    exfalso
    cases n with
    | mk a b =>
      simp at hn
  | succ k ih =>
    intro n hn tcs tc h hm
    cases n with
    | mk ts cs =>
      cases ts with
      | some suites =>
        rw [show JUnitParser.parseTestSuiteNode (.mk (some suites) cs) =
            JUnitParser.parseSuiteList suites from rfl] at h
        obtain ⟨t, ht, sub, hsub, hmem⟩ := parseSuiteList_mem suites tcs tc h hm
        have hsize : sizeOf t ≤ k := by
          have h1 := List.sizeOf_lt_of_mem ht
          have h2 : sizeOf (TestSuiteNode.mk (some suites) cs) =
              1 + sizeOf (some suites) + sizeOf cs := by simp
          simp only [Option.some.sizeOf_spec] at h2
          omega
        exact ih t hsize sub tc hsub hmem
      | none =>
        cases cs with
        | some cases2 =>
          rw [show JUnitParser.parseTestSuiteNode (.mk none (some cases2)) =
              mapAll JUnitParser.parseTestCase cases2 from rfl] at h
          obtain ⟨cn, _, hcn⟩ := mapAll_ok_mem _ cases2 tcs h tc hm
          exact ⟨cn, hcn⟩
        | none =>
          rw [show JUnitParser.parseTestSuiteNode (.mk none none) =
              .ok [] from rfl] at h
          cases h
          cases hm

/-- C8: every `TestCase` in the output of either parser's `parseString`
satisfies the invariant: either the fault is absent and the type is
`Passed`, or the fault is present and the type is not `Passed`
(exactly one of the two holds, since the disjuncts contradict each
other). -/
theorem c8_theorem (xmlParse : String → Except String (Option TestSuiteNode))
    (jContent : String) (win : Bool) (tok : String → List String)
    (ld : String → String → Except String Int) (tContent : String)
    (tcs1 tcs2 : List TestCase) (tc1 tc2 : TestCase) :
    (JUnitParser.parseString xmlParse jContent = .ok tcs1 → tc1 ∈ tcs1 →
      faultInvariant tc1) ∧
    (TeamCityParser.parseString win tok ld tContent = .ok tcs2 → tc2 ∈ tcs2 →
      faultInvariant tc2) := by
  constructor
  · intro h hm
    unfold JUnitParser.parseString at h
    split at h
    · cases h
    · cases h
    next root _ =>
      obtain ⟨cn, hcn⟩ := parseTestSuiteNode_mem (sizeOf root) root (Nat.le_refl _)
        tcs1 tc1 h hm
      exact parseTestCase_invariant cn tc1 hcn
  · intro h hm
    unfold TeamCityParser.parseString TeamCityParser.convertToTestCase at h
    obtain ⟨g, _, hg⟩ := mapAll_ok_mem _ _ tcs2 h tc2 hm
    exact convertGroup_invariant win ld g tc2 hg

/-- A one-test JUnit document for the C8 witness. -/
def c8XmlDoc : Option TestSuiteNode :=
  some (.mk none (some [{ attr := some { name := some "t" } }]))

/-- A tokenizer oracle for the C8 witness service-message stream. -/
def c8Tok : String → List String :=
  fun s => if s = "a" then ["testStarted", "locationHint=f.php::C::m"]
           else ["testFinished", "duration=1"]

/-- The C8 witness service-message stream. -/
def c8Content : String := "##teamcity[a]\n##teamcity[b]"

/-- C8 witness: the invariant holds for the test case produced by each
parser on a concrete input. -/
theorem c8_witness :
    faultInvariant
      { name := some "t", «class» := none, classname := none, file := none,
        line := some 0, time := none, type := some .PASSED, fault := none } ∧
    faultInvariant
      { name := some "m", «class» := some "C", classname := none, file := some "f.php",
        line := some 4, time := some "1", type := some .PASSED, fault := none } := by
  have hthm := c8_theorem (fun _ => .ok c8XmlDoc) "x" false c8Tok (fun _ _ => .ok 4)
    c8Content
    [{ name := some "t", «class» := none, classname := none, file := none,
       line := some 0, time := none, type := some .PASSED, fault := none }]
    [{ name := some "m", «class» := some "C", classname := none, file := some "f.php",
       line := some 4, time := some "1", type := some .PASSED, fault := none }]
    { name := some "t", «class» := none, classname := none, file := none,
      line := some 0, time := none, type := some .PASSED, fault := none }
    { name := some "m", «class» := some "C", classname := none, file := some "f.php",
      line := some 4, time := some "1", type := some .PASSED, fault := none }
  exact ⟨hthm.1 rfl (by simp), hthm.2 rfl (by simp)⟩

/-! ## Claim C1 (corrected) -/

/-- C1 counterexample: on the claimed stream (with the failure text
carried, as the code requires, in the `details` field of the middle
event), the first Detail does become the test case's own file/line, but
the line is `5` — exactly the number written in the text, *not*
converted from one-based to zero-based, so the claimed `line = 4` is
false. -/
theorem c1_counterexample :
    TeamCityParser.convertToTestCase false (fun _ _ => .error "")
        (TeamCityParser.groupByType
          [{ type := some "testStarted", locationHint := some "php_qn://t.php::C::m" },
           { type := some "testFailed", message := some "a.php:5|nb.php:9",
             details := some "a.php:5|nb.php:9" },
           { type := some "testFinished", duration := some "1" }]) =
      .ok [{ name := some "m", «class» := some "C", classname := none,
             file := some "a.php", line := some 5, time := some "1",
             type := some .FAILURE,
             fault := some { message := some "a.php:5|nb.php:9", type := none,
                             details := [⟨"a.php", 5⟩, ⟨"b.php", 9⟩] } }] ∧
      (some (5 : Int) : Option Int) ≠ some 4 :=
  ⟨rfl, by decide⟩

/-- C1 as amended: for every failed test group, the split happens on the
middle event's `details` field; each produced Detail carries the line
*exactly as written* in its segment (one-based, no conversion), and the
first Detail becomes the test case's own file/line — so the claimed
stream yields `file = "a.php"` and `line = 5`, not `4`. -/
theorem c1_amended (win : Bool) (ld : String → String → Except String Int)
    (st err fin : TCEvent) (lh s : String) (d : Detail) (ds : List Detail)
    (hty : err.type = some "testFailed")
    (hlh : st.locationHint = some lh)
    (hdet : err.details = some s)
    (hconv : TeamCityParser.convertToDetail win s = .ok (d :: ds)) :
    ∃ tc, TeamCityParser.convertGroup win ld [st, err, fin] = .ok tc ∧
      tc.file = some d.file ∧ tc.line = some d.line ∧
      ∀ e ∈ d :: ds, ∃ seg ∈ (jsSplitOnStr s "|n").map jsTrim, ∃ p,
        fileLineSearch seg = some p ∧
          e.file = TeamCityParser.renamePath win p.1 ∧
          e.line = (digitsVal p.2.data : Int) := by
  refine ⟨{ name := (TeamCityParser.parseLocationHint win lh)[2]?,
            «class» := (TeamCityParser.parseLocationHint win lh)[1]?,
            classname := none,
            file := some d.file,
            line := some d.line,
            time := fin.duration,
            type := some .FAILURE,
            fault := some { message := err.message, type := none,
                            details := (d :: ds).filter (fun d2 =>
                              some d2.file != (TeamCityParser.parseLocationHint win lh)[0]?) } },
        ?_, rfl, rfl, ?_⟩
  · unfold TeamCityParser.convertGroup
    simp [hlh, hty, hdet, hconv, TeamCityParser.typeMap]
  · intro e he
    unfold TeamCityParser.convertToDetail at hconv
    obtain ⟨seg, hseg, hfseg⟩ := mapAll_ok_mem _ _ _ hconv e he
    refine ⟨seg, (List.mem_filter.mp hseg).1, ?_⟩
    cases hfs : fileLineSearch seg with
    | none => rw [hfs] at hfseg; cases hfseg
    | some p =>
      rw [hfs] at hfseg
      cases hfseg
      exact ⟨p, rfl, rfl, rfl⟩

/-- C1 witness: the amended theorem at the claimed stream. -/
theorem c1_amended_witness :
    ∃ tc, TeamCityParser.convertGroup false (fun _ _ => .error "")
        [{ type := some "testStarted", locationHint := some "php_qn://t.php::C::m" },
         { type := some "testFailed", message := some "a.php:5|nb.php:9",
           details := some "a.php:5|nb.php:9" },
         { type := some "testFinished", duration := some "1" }] = .ok tc ∧
      tc.file = some (Detail.mk "a.php" 5).file ∧
      tc.line = some (Detail.mk "a.php" 5).line ∧
      ∀ e ∈ [Detail.mk "a.php" 5, Detail.mk "b.php" 9],
        ∃ seg ∈ (jsSplitOnStr "a.php:5|nb.php:9" "|n").map jsTrim, ∃ p,
          fileLineSearch seg = some p ∧
            e.file = TeamCityParser.renamePath false p.1 ∧
            e.line = (digitsVal p.2.data : Int) :=
  c1_amended false (fun _ _ => .error "")
    { type := some "testStarted", locationHint := some "php_qn://t.php::C::m" }
    { type := some "testFailed", message := some "a.php:5|nb.php:9",
      details := some "a.php:5|nb.php:9" }
    { type := some "testFinished", duration := some "1" }
    "php_qn://t.php::C::m" "a.php:5|nb.php:9" ⟨"a.php", 5⟩ [⟨"b.php", 9⟩]
    rfl rfl rfl rfl

/-! ## Claim C2 (corrected) -/

/-- C2 counterexample: here the details are
`[a.php:5, t.php:9, a.php:7]` and the *first* detail (`a.php:5`) becomes
the override file/line, but the fault's details exclude the entries whose
file equals the `locationHint` file `t.php` — keeping both `a.php`
entries — not the entries equal to the chosen override file `a.php` as
the claim states (which would have kept exactly `t.php:9`). -/
theorem c2_counterexample :
    TeamCityParser.convertToTestCase false (fun _ _ => .error "")
        (TeamCityParser.groupByType
          [{ type := some "testStarted", locationHint := some "php_qn://t.php::C::m" },
           { type := some "testFailed", message := some "x",
             details := some "a.php:5|nt.php:9|na.php:7" },
           { type := some "testFinished", duration := some "1" }]) =
      .ok [{ name := some "m", «class» := some "C", classname := none,
             file := some "a.php", line := some 5, time := some "1",
             type := some .FAILURE,
             fault := some { message := some "x", type := none,
                             details := [⟨"a.php", 5⟩, ⟨"a.php", 7⟩] } }] ∧
      ([⟨"a.php", 5⟩, ⟨"a.php", 7⟩] : List Detail) ≠ [⟨"t.php", 9⟩] :=
  ⟨rfl, by decide⟩

/-- C2 as amended: for every non-passing test, the returned fault's
details exclude exactly those Detail entries whose file equals the
*nominal* file parsed from the start event's `locationHint` (not the
override file taken from the first Detail), retaining all other entries
in order. -/
theorem c2_amended (win : Bool) (ld : String → String → Except String Int)
    (st err fin : TCEvent) (lh s : String) (ds : List Detail)
    (hty : TeamCityParser.typeMap err.type ≠ some TestType.PASSED)
    (hlh : st.locationHint = some lh)
    (hdet : err.details = some s)
    (hconv : TeamCityParser.convertToDetail win s = .ok ds) :
    ∃ tc fl, TeamCityParser.convertGroup win ld [st, err, fin] = .ok tc ∧
      tc.fault = some fl ∧
      fl.details = ds.filter
        (fun d => some d.file != (TeamCityParser.parseLocationHint win lh)[0]?) := by
  cases ds with
  | nil =>
    refine ⟨{ name := (TeamCityParser.parseLocationHint win lh)[2]?,
              «class» := (TeamCityParser.parseLocationHint win lh)[1]?,
              classname := none,
              file := (TeamCityParser.parseLocationHint win lh)[0]?,
              line := some 0,
              time := fin.duration,
              type := TeamCityParser.typeMap err.type,
              fault := some { message := err.message, type := none, details := [] } },
          { message := err.message, type := none, details := [] }, ?_, rfl, rfl⟩
    unfold TeamCityParser.convertGroup
    simp [hlh, hty, hdet, hconv]
  | cons d0 drest =>
    refine ⟨{ name := (TeamCityParser.parseLocationHint win lh)[2]?,
              «class» := (TeamCityParser.parseLocationHint win lh)[1]?,
              classname := none,
              file := some d0.file,
              line := some d0.line,
              time := fin.duration,
              type := TeamCityParser.typeMap err.type,
              fault := some { message := err.message, type := none,
                              details := (d0 :: drest).filter (fun d =>
                                some d.file != (TeamCityParser.parseLocationHint win lh)[0]?) } },
          { message := err.message, type := none,
            details := (d0 :: drest).filter (fun d =>
              some d.file != (TeamCityParser.parseLocationHint win lh)[0]?) },
          ?_, rfl, rfl⟩
    unfold TeamCityParser.convertGroup
    simp [hlh, hty, hdet, hconv]

/-- C2 witness: the amended theorem at a skipped (`testIgnored`, so
non-passing but not `testFailed`) test group whose details mix the
locationHint file `t.php` with another file. -/
theorem c2_amended_witness :
    ∃ tc fl, TeamCityParser.convertGroup false (fun _ _ => .error "")
        [{ type := some "testStarted", locationHint := some "php_qn://t.php::C::m" },
         { type := some "testIgnored", message := some "x",
           details := some "a.php:5|nt.php:9|na.php:7" },
         { type := some "testFinished", duration := some "1" }] = .ok tc ∧
      tc.fault = some fl ∧
      fl.details = ([⟨"a.php", 5⟩, ⟨"t.php", 9⟩, ⟨"a.php", 7⟩] : List Detail).filter
        (fun d => some d.file !=
          (TeamCityParser.parseLocationHint false "php_qn://t.php::C::m")[0]?) :=
  c2_amended false (fun _ _ => .error "")
    { type := some "testStarted", locationHint := some "php_qn://t.php::C::m" }
    { type := some "testIgnored", message := some "x",
      details := some "a.php:5|nt.php:9|na.php:7" }
    { type := some "testFinished", duration := some "1" }
    "php_qn://t.php::C::m" "a.php:5|nt.php:9|na.php:7"
    [⟨"a.php", 5⟩, ⟨"t.php", 9⟩, ⟨"a.php", 7⟩]
    (by decide) rfl rfl rfl

/-! ## Claim C3 (confirmed) -/

/-- Source: `currentFile` unfolded to its match form. -/
theorem currentFile_spec (details : List Detail) (tcFile : Option String)
    (tcLine : Option Int) :
    JUnitParser.currentFile details tcFile tcLine =
      match (details.filter (fun d => tcFile == some d.file)).getLast? with
      | some d => (some d.file, some d.line)
      | none => (tcFile, tcLine) := by
  unfold JUnitParser.currentFile
  rfl

/-- C3: for a JUnit `testcase` with a fault node, if any extracted
Detail's file equals the testcase's nominal file, the returned file/line
equal the *last* such Detail's location; otherwise the nominal file/line
stand.  The returned fault's details exclude every Detail whose file
equals the final file and retain the others in order. -/
theorem c3_theorem (n : TestCaseNode) (a : Attrs) (fn : FaultNode)
    (raw : String) (fa : Attrs)
    (hn : n.attr = some a) (hfn : JUnitParser.getFaultNode n = .ok (some fn))
    (hraw : fn.text = some raw) (hfa : fn.attr = some fa) :
    ∃ tc, JUnitParser.parseTestCase n = .ok tc ∧
      (match ((JUnitParser.parseDetails (crlf2lf raw)).filter
          (fun d => (JUnitParser.baseTestCase a).file == some d.file)).getLast? with
       | some dlast => tc.file = some dlast.file ∧ tc.line = some dlast.line
       | none => tc.file = (JUnitParser.baseTestCase a).file ∧
           tc.line = (JUnitParser.baseTestCase a).line) ∧
      ∃ fl, tc.fault = some fl ∧
        fl.details = (JUnitParser.parseDetails (crlf2lf raw)).filter
          (fun d => some d.file != tc.file) := by
  refine ⟨{ JUnitParser.baseTestCase a with
            file := (JUnitParser.currentFile (JUnitParser.parseDetails (crlf2lf raw))
              (JUnitParser.baseTestCase a).file (JUnitParser.baseTestCase a).line).1
            line := (JUnitParser.currentFile (JUnitParser.parseDetails (crlf2lf raw))
              (JUnitParser.baseTestCase a).file (JUnitParser.baseTestCase a).line).2
            type := some fn.type
            fault := some
              { type := some (jsOrEmpty fa.type)
                message := some (jsTrim (JUnitParser.stripDetails (crlf2lf raw)
                  (JUnitParser.parseDetails (crlf2lf raw))))
                details := (JUnitParser.parseDetails (crlf2lf raw)).filter
                  (fun d => some d.file != (JUnitParser.baseTestCase a).file) } },
      ?_, ?_, ?_⟩
  · unfold JUnitParser.parseTestCase
    simp [hn, hfn, hraw, hfa]
  · rw [currentFile_spec]
    cases hlast : ((JUnitParser.parseDetails (crlf2lf raw)).filter
        (fun d => (JUnitParser.baseTestCase a).file == some d.file)).getLast? with
    | some dlast => exact ⟨rfl, rfl⟩
    | none => exact ⟨rfl, rfl⟩
  · have hfile : (JUnitParser.currentFile (JUnitParser.parseDetails (crlf2lf raw))
        (JUnitParser.baseTestCase a).file (JUnitParser.baseTestCase a).line).1 =
        (JUnitParser.baseTestCase a).file := by
      rw [currentFile_spec]
      cases hlast : ((JUnitParser.parseDetails (crlf2lf raw)).filter
          (fun d => (JUnitParser.baseTestCase a).file == some d.file)).getLast? with
      | some dlast =>
        have hmem : dlast ∈ (JUnitParser.parseDetails (crlf2lf raw)).filter
            (fun d => (JUnitParser.baseTestCase a).file == some d.file) := by
          obtain ⟨hne, hx⟩ := List.mem_getLast?_eq_getLast hlast
          exact hx ▸ List.getLast_mem hne
        have heq := (List.mem_filter.mp hmem).2
        simp only [beq_iff_eq] at heq
        exact heq.symm
      | none => rfl
    refine ⟨_, rfl, ?_⟩
    rw [hfile]

/-- C3 witness: the "in particular" instance — two embedded tokens
`a.php:3` and `x.php:7` where the second matches the nominal file
`x.php`; the returned location is the second token's (zero-based), the
fault's details exclude it and retain the first. -/
theorem c3_witness :
    ∃ tc, JUnitParser.parseTestCase
        { attr := some { name := some "t", «class» := some "T", file := some "x.php",
                         line := some "10", time := some "0.1" },
          failure := some [{ attr := some { type := some "Err" },
                             text := some "msg\na.php:3\nx.php:7" }] } = .ok tc ∧
      (match ((JUnitParser.parseDetails (crlf2lf "msg\na.php:3\nx.php:7")).filter
          (fun d => (JUnitParser.baseTestCase
            { name := some "t", «class» := some "T", file := some "x.php",
              line := some "10", time := some "0.1" }).file == some d.file)).getLast? with
       | some dlast => tc.file = some dlast.file ∧ tc.line = some dlast.line
       | none => tc.file = (JUnitParser.baseTestCase
             { name := some "t", «class» := some "T", file := some "x.php",
               line := some "10", time := some "0.1" }).file ∧
           tc.line = (JUnitParser.baseTestCase
             { name := some "t", «class» := some "T", file := some "x.php",
               line := some "10", time := some "0.1" }).line) ∧
      ∃ fl, tc.fault = some fl ∧
        fl.details = (JUnitParser.parseDetails (crlf2lf "msg\na.php:3\nx.php:7")).filter
          (fun d => some d.file != tc.file) :=
  c3_theorem
    { attr := some { name := some "t", «class» := some "T", file := some "x.php",
                     line := some "10", time := some "0.1" },
      failure := some [{ attr := some { type := some "Err" },
                         text := some "msg\na.php:3\nx.php:7" }] }
    { name := some "t", «class» := some "T", file := some "x.php",
      line := some "10", time := some "0.1" }
    { type := .FAILURE, attr := some { type := some "Err" },
      text := some "msg\na.php:3\nx.php:7" }
    "msg\na.php:3\nx.php:7"
    { type := some "Err" }
    rfl rfl rfl rfl

/-! ## Claim C4 (confirmed) -/

/-- Source: `parseErrorType` realises the spec's substring classification. -/
theorem parseErrorType_eq_spec (e : XmlNode) (a : Attrs) (t : String)
    (ha : e.attr = some a) (ht : a.type = some t) :
    JUnitParser.parseErrorType (some e) = .ok (specErrorClassify t) := by
  unfold JUnitParser.parseErrorType specErrorClassify
  simp only [ha, ht, TestType.value]
  split_ifs <;> rfl

/-- C4: the fault node is chosen with the fixed priority
`error` > `warning` > `failure` > (`skipped` or `incomplete`, treated
identically) > none; an absent fault node means the test case comes back
as `Passed` with no fault; and an `error` node's declared type string is
classified by the case-insensitive substring priority
skipped → incomplete → failed → error (`specErrorClassify`). -/
theorem c4_theorem (n : TestCaseNode) (es : List XmlNode) (e : XmlNode)
    (a : Attrs) (t : String) (a2 : Attrs) :
    ((n.error = some es ∧ es.head? = some e ∧ e.attr = some a ∧ a.type = some t) →
        JUnitParser.getFaultNode n =
          .ok (some { type := specErrorClassify t, attr := e.attr, text := e.text })) ∧
      (n.error = none → n.warning.isSome = true →
        ∃ fn, JUnitParser.getFaultNode n = .ok (some fn) ∧ fn.type = .WARNING) ∧
      (n.error = none → n.warning = none → n.failure.isSome = true →
        ∃ fn, JUnitParser.getFaultNode n = .ok (some fn) ∧ fn.type = .FAILURE) ∧
      (n.error = none → n.warning = none → n.failure = none →
        (n.skipped.isSome = true ∨ n.incomplete.isSome = true) →
        ∃ fn, JUnitParser.getFaultNode n = .ok (some fn) ∧ fn.type = .SKIPPED) ∧
      (n.error = none → n.warning = none → n.failure = none → n.skipped = none →
        n.incomplete = none →
        JUnitParser.getFaultNode n = .ok none ∧
          (n.attr = some a2 →
            ∃ tc, JUnitParser.parseTestCase n = .ok tc ∧ tc.type = some .PASSED ∧
              tc.fault = none)) := by
  refine ⟨?_, ?_, ?_, ?_, ?_⟩
  · rintro ⟨h1, h2, h3, h4⟩
    unfold JUnitParser.getFaultNode
    rw [h1]
    simp only [Option.isSome_some, if_true, Option.getD_some, h2]
    rw [parseErrorType_eq_spec e a t h3 h4]
    simp [h2]
  · intro h1 h2
    refine ⟨{ type := .WARNING, attr := ((n.warning.getD []).head?).bind (·.attr),
              text := ((n.warning.getD []).head?).bind (·.text) }, ?_, rfl⟩
    unfold JUnitParser.getFaultNode
    rw [h1]
    simp [h2]
  · intro h1 h2 h3
    refine ⟨{ type := .FAILURE, attr := ((n.failure.getD []).head?).bind (·.attr),
              text := ((n.failure.getD []).head?).bind (·.text) }, ?_, rfl⟩
    unfold JUnitParser.getFaultNode
    rw [h1, h2]
    simp [h3]
  · intro h1 h2 h3 h4
    refine ⟨{ type := .SKIPPED, attr := some { type := some TestType.SKIPPED.value },
              text := some "" }, ?_, rfl⟩
    unfold JUnitParser.getFaultNode
    rw [h1, h2, h3]
    rcases h4 with h4 | h4 <;> simp [h4]
  · intro h1 h2 h3 h4 h5
    have hfault : JUnitParser.getFaultNode n = .ok none := by
      unfold JUnitParser.getFaultNode
      rw [h1, h2, h3, h4, h5]
      rfl
    refine ⟨hfault, ?_⟩
    intro ha2
    refine ⟨JUnitParser.baseTestCase a2, ?_, rfl, rfl⟩
    unfold JUnitParser.parseTestCase
    rw [ha2, hfault]

/-- C4 witness: a testcase carrying *both* an `error` node (type
`PHPUnit_Framework_SkippedTestError`) and a `failure` node takes the
error node (priority) and classifies it as `Skipped` (case-insensitive
substring), not `Error`. -/
theorem c4_witness :
    JUnitParser.getFaultNode
        { attr := some { name := some "t" },
          error := some [{ attr := some { type := some "PHPUnit_Framework_SkippedTestError" },
                           text := some "" }],
          failure := some [{ attr := some { type := some "f" }, text := some "" }] } =
      .ok (some { type := .SKIPPED,
                  attr := some { type := some "PHPUnit_Framework_SkippedTestError" },
                  text := some "" }) :=
  (c4_theorem
    { attr := some { name := some "t" },
      error := some [{ attr := some { type := some "PHPUnit_Framework_SkippedTestError" },
                       text := some "" }],
      failure := some [{ attr := some { type := some "f" }, text := some "" }] }
    [{ attr := some { type := some "PHPUnit_Framework_SkippedTestError" }, text := some "" }]
    { attr := some { type := some "PHPUnit_Framework_SkippedTestError" }, text := some "" }
    { type := some "PHPUnit_Framework_SkippedTestError" }
    "PHPUnit_Framework_SkippedTestError"
    { name := some "t" }).1 ⟨rfl, rfl, rfl, rfl⟩

/-! ## Claim C7 (corrected) -/

/-- C7 counterexample: a `locationHint` of `"f.php"` splits into one part
(not three), yet the parse *succeeds* and returns a test case (with this
short hint the class/method names are simply absent) — refuting the
claim that any malformed locationHint is a hard parse error. -/
theorem c7_counterexample :
    TeamCityParser.convertToTestCase false (fun _ _ => .error "")
        (TeamCityParser.groupByType
          [{ type := some "testStarted", locationHint := some "f.php" },
           { type := some "testFailed", message := some "m", details := some "a.php:1" },
           { type := some "testFinished", duration := some "2" }]) =
      .ok [{ name := none, «class» := none, classname := none,
             file := some "a.php", line := some 1, time := some "2",
             type := some .FAILURE,
             fault := some { message := some "m", type := none,
                             details := [⟨"a.php", 1⟩] } }] ∧
      (TeamCityParser.parseLocationHint false "f.php").length ≠ 3 :=
  ⟨rfl, by decide⟩

/-- C7 as amended: a non-empty failure-detail segment that does not match
`<file>:<line>` is still a hard error for the whole parse call, but a
`locationHint` that does not split into exactly three parts is *not* an
error — the missing parts merely come back absent. -/
theorem c7_amended (win : Bool) (ld : String → String → Except String Int)
    (gs : List (List TCEvent)) (st err fin : TCEvent) (lh s seg : String)
    (hg : [st, err, fin] ∈ gs)
    (hlh : st.locationHint = some lh)
    (hty : err.type = some "testFailed")
    (hdet : err.details = some s)
    (hseg : seg ∈ (jsSplitOnStr s "|n").map jsTrim) (hne : seg ≠ "")
    (hmatch : fileLineSearch seg = none) :
    ∃ msg, TeamCityParser.convertToTestCase win ld gs = .error msg := by
  have hdErr : ∃ e, TeamCityParser.convertToDetail win s = .error e := by
    unfold TeamCityParser.convertToDetail
    apply mapAll_error_of_mem _ _ seg
    · exact List.mem_filter.mpr ⟨hseg, by simpa using hne⟩
    · exact ⟨_, by rw [hmatch]⟩
  obtain ⟨e, he⟩ := hdErr
  unfold TeamCityParser.convertToTestCase
  apply mapAll_error_of_mem _ _ _ hg
  refine ⟨e, ?_⟩
  unfold TeamCityParser.convertGroup
  simp [hlh, hty, hdet, he, TeamCityParser.typeMap]

/-- C7 witness: the amended theorem at a concrete stream whose failure
details contain the non-matching segment `"no token here"`. -/
theorem c7_amended_witness :
    ∃ msg, TeamCityParser.convertToTestCase false (fun _ _ => .error "")
        [[{ type := some "testStarted", locationHint := some "t.php::C::m" },
          { type := some "testFailed", message := some "m", details := some "no token here" },
          { type := some "testFinished", duration := some "1" }]] = .error msg :=
  c7_amended false (fun _ _ => .error "")
    [[{ type := some "testStarted", locationHint := some "t.php::C::m" },
      { type := some "testFailed", message := some "m", details := some "no token here" },
      { type := some "testFinished", duration := some "1" }]]
    { type := some "testStarted", locationHint := some "t.php::C::m" }
    { type := some "testFailed", message := some "m", details := some "no token here" }
    { type := some "testFinished", duration := some "1" }
    "t.php::C::m" "no token here" "no token here"
    (by decide) rfl rfl rfl (by decide) (by decide) (by decide)
